import Mathlib

/-!
Verification of the FW Cycle Time Monitor core (`fw_cycle_monitor`).

Shallow embedding conventions:

* A timezone-aware instant (`datetime`) is modelled as a `Nat` counting
  seconds since an epoch, all instants expressed in one fixed UTC offset.
  `reference.replace(hour=h, minute=0, second=0, microsecond=0)` becomes
  "floor to the start of the day, then add `h` hours", i.e.
  `reference / 86400 * 86400 + h * 3600`.
* Python integers holding cycle counts are modelled as `Nat`, following the
  data model (`last_cycle` is a non-negative integer); every count the code
  produces starts from 0 and only ever increments or resets to 0.
* Fallible I/O is modelled by explicit success flags or `Except` results.
-/

/-- One `_CycleCounter` instance (`gpio_monitor.py`): reset hour, running
count, and the optional next-reset instant. -/
structure CycleCounter where
  reset_hour : Nat
  count : Nat
  next_reset : Option Nat
deriving DecidableEq, Repr

/-- `_CycleCounter.__init__(reset_hour)`: count 0, no next reset yet. -/
def CycleCounter.init (reset_hour : Nat) : CycleCounter :=
  ⟨reset_hour, 0, none⟩

/-- `_CycleCounter._calculate_next_reset`: the reset-hour boundary of the
reference's day if the reference is strictly before it, otherwise that
boundary plus one day. -/
def CycleCounter.calculate_next_reset (c : CycleCounter) (reference : Nat) : Nat :=
  let cycle_reset := reference / 86400 * 86400 + c.reset_hour * 3600
  if reference < cycle_reset then cycle_reset else cycle_reset + 86400

/-- `_CycleCounter.configure(reference, current_count)`. -/
def CycleCounter.configure (c : CycleCounter) (reference : Nat) (current_count : Nat) :
    CycleCounter :=
  { c with count := current_count, next_reset := some (c.calculate_next_reset reference) }

/-- The `while self._next_reset and timestamp >= self._next_reset` loop of
`_CycleCounter.record`: zero the count and advance the next reset by one day
until the next reset lies strictly after the timestamp.  Returns the final
(count, next_reset) pair. -/
def rollResets (count nr t : Nat) : Nat × Nat :=
  if h : nr ≤ t then rollResets 0 (nr + 86400) t else (count, nr)
termination_by t + 1 - nr
decreasing_by omega

/-- `_CycleCounter.record(timestamp)`: seed the counter if uninitialised,
run the catch-up loop, then increment and return the new count. -/
def CycleCounter.record (c : CycleCounter) (t : Nat) : CycleCounter × Nat :=
  let c0 := if c.next_reset.isNone then c.configure t c.count else c
  let c1 :=
    match c0.next_reset with
    | none => c0
    | some nr =>
      let r := rollResets c0.count nr t
      { c0 with count := r.1, next_reset := some r.2 }
  let c2 := { c1 with count := c1.count + 1 }
  (c2, c2.count)

/-- Closed form of the catch-up loop: the count survives iff no boundary was
crossed, and the next reset advances by one day per boundary at or before
`t`. -/
theorem rollResets_eq (count nr t : Nat) :
    rollResets count nr t =
      (if nr ≤ t then 0 else count,
       nr + (if nr ≤ t then (t - nr) / 86400 + 1 else 0) * 86400) := by
  rw [rollResets]
  split
  · next h =>
    rw [rollResets_eq 0 (nr + 86400) t]
    simp only [if_pos h, Prod.mk.injEq]
    by_cases h2 : nr + 86400 ≤ t
    · have hd : (t - nr) / 86400 = (t - nr - 86400) / 86400 + 1 := by
        rw [Nat.div_eq (t - nr) 86400]
        simp only [if_pos (by omega : 0 < 86400 ∧ 86400 ≤ t - nr)]
      have he : t - (nr + 86400) = t - nr - 86400 := by omega
      simp only [if_pos h2, he, hd]
      refine ⟨trivial, by ring⟩
    · have hlt : (t - nr) / 86400 = 0 := Nat.div_eq_of_lt (by omega)
      simp only [if_neg h2, hlt]
      exact ⟨trivial, trivial⟩
  · next h =>
    simp only [if_neg h, Prod.mk.injEq]
    refine ⟨trivial, by omega⟩
termination_by t + 1 - nr
decreasing_by omega

/-- The reset-hour boundary lying in the same day as `t`: midnight of `t`'s
day plus `h` hours (the meaning of `t.replace(hour=h, minute=0, second=0,
microsecond=0)` for the fixed-offset instants of this model). -/
def sameDayBoundary (h t : Nat) : Nat := t / 86400 * 86400 + h * 3600

theorem calculate_next_reset_gt (c : CycleCounter) (r : Nat) :
    r < c.calculate_next_reset r := by
  simp only [CycleCounter.calculate_next_reset]
  split <;> omega

/-- `record` on an initialised counter, in closed form. -/
theorem record_eq (c : CycleCounter) (nr t : Nat) (h : c.next_reset = some nr) :
    c.record t =
      ({ c with
          count := (if nr ≤ t then 0 else c.count) + 1,
          next_reset := some (nr + (if nr ≤ t then (t - nr) / 86400 + 1 else 0) * 86400) },
       (if nr ≤ t then 0 else c.count) + 1) := by
  simp only [CycleCounter.record, h, Option.isNone_some, Bool.false_eq_true, if_false,
    rollResets_eq]

/-- `record` on an uninitialised counter first seeds it via `configure` with
the current count and the timestamp as reference. -/
theorem record_none_eq (c : CycleCounter) (t : Nat) (h : c.next_reset = none) :
    c.record t = (c.configure t c.count).record t := by
  simp only [CycleCounter.record, CycleCounter.configure, h, Option.isNone_none,
    Option.isNone_some, Bool.false_eq_true, if_true, if_false]

/-- Claim C7: `configure(reference, current_count)` sets the count to
`current_count` and the next reset to the reset-hour boundary strictly after
the reference: the same day's boundary when the reference is strictly before
it, otherwise (including a reference exactly on the boundary) the next
day's. -/
theorem configure_sets_count_and_future_reset (c : CycleCounter) (r cnt : Nat) :
    (c.configure r cnt).count = cnt ∧
    (c.configure r cnt).next_reset =
      some (if r < sameDayBoundary c.reset_hour r then sameDayBoundary c.reset_hour r
            else sameDayBoundary c.reset_hour r + 86400) ∧
    r < (if r < sameDayBoundary c.reset_hour r then sameDayBoundary c.reset_hour r
         else sameDayBoundary c.reset_hour r + 86400) := by
  refine ⟨rfl, rfl, ?_⟩
  simp only [sameDayBoundary]
  split <;> omega

/-- Claim C9: every `record(t)` call leaves `next_reset` strictly greater
than `t`, and returns the counter's internal count, which is at least 1.
(The code guarantees this for every call, with or without the spec's
non-decreasing-timestamps proviso.) -/
theorem record_invariant (c : CycleCounter) (t : Nat) :
    ∃ nr, (c.record t).1.next_reset = some nr ∧ t < nr ∧
      (c.record t).2 = (c.record t).1.count ∧ 1 ≤ (c.record t).2 := by
  cases hc : c.next_reset with
  | some nr =>
    rw [record_eq c nr t hc]
    refine ⟨_, rfl, ?_, rfl, Nat.le_add_left 1 _⟩
    split <;> omega
  | none =>
    rw [record_none_eq c t hc]
    rw [record_eq (c.configure t c.count) (c.calculate_next_reset t) t rfl]
    refine ⟨_, rfl, ?_, rfl, Nat.le_add_left 1 _⟩
    have hgt := calculate_next_reset_gt c t
    split <;> omega

/-- Claim C1: the first `record` on an uninitialised reset-hour-4 counter
seeds it at count 0 with the timestamp as reference; on an initialised
counter, `record(t)` zeroes the count and advances `next_reset` by one day
per boundary at or before `t`, then increments and returns the count; and
the 2024-01-01 03:00/05:00/06:00 UTC scenario returns cycles 1, 1, 2. -/
theorem record_daily_reset_behaviour :
    (∀ t : Nat, (CycleCounter.init 4).record t = ((CycleCounter.init 4).configure t 0).record t) ∧
    (∀ (c : CycleCounter) (nr t : Nat), c.next_reset = some nr →
      (c.record t).2 = (if nr ≤ t then 0 else c.count) + 1 ∧
      (c.record t).1.next_reset =
        some (nr + (if nr ≤ t then (t - nr) / 86400 + 1 else 0) * 86400)) ∧
    ((CycleCounter.init 4).record 1704078000).2 = 1 ∧
    (((CycleCounter.init 4).record 1704078000).1.record 1704085200).2 = 1 ∧
    ((((CycleCounter.init 4).record 1704078000).1.record 1704085200).1.record 1704088800).2
      = 2 := by
  have e1 : (CycleCounter.init 4).record 1704078000 =
      (⟨4, 1, some 1704081600⟩, 1) := by
    rw [record_none_eq _ _ rfl,
      record_eq ((CycleCounter.init 4).configure 1704078000 (CycleCounter.init 4).count)
        1704081600 _ rfl]
    decide
  have e2 : (⟨4, 1, some 1704081600⟩ : CycleCounter).record 1704085200 =
      (⟨4, 1, some 1704168000⟩, 1) := by
    rw [record_eq _ 1704081600 _ rfl]
    decide
  have e3 : (⟨4, 1, some 1704168000⟩ : CycleCounter).record 1704088800 =
      (⟨4, 2, some 1704168000⟩, 2) := by
    rw [record_eq _ 1704168000 _ rfl]
    decide
  refine ⟨fun t => rfl, fun c nr t h => ?_, ?_, ?_, ?_⟩
  · rw [record_eq c nr t h]
    exact ⟨rfl, rfl⟩
  · rw [e1]
  · rw [e1]; rw [e2]
  · rw [e1]; rw [e2]; rw [e3]

/-- Concrete instantiation of the initialised-counter clause of
`record_daily_reset_behaviour`. -/
theorem record_daily_reset_behaviour_witness :
    ((⟨4, 5, some 100⟩ : CycleCounter).record 250000).2 = (if 100 ≤ 250000 then 0 else 5) + 1 ∧
    ((⟨4, 5, some 100⟩ : CycleCounter).record 250000).1.next_reset =
      some (100 + (if 100 ≤ 250000 then (250000 - 100) / 86400 + 1 else 0) * 86400) :=
  record_daily_reset_behaviour.2.1 ⟨4, 5, some 100⟩ 100 250000 rfl

/-- `state.MachineState`: the `(machine_id, last_cycle, last_timestamp)`
triple persisted for a machine. -/
structure MachineState where
  machine_id : String
  last_cycle : Nat
  last_timestamp : Nat
deriving DecidableEq, Repr

/-- Observable outcome of `CycleMonitor._restore_counter_state`: the chosen
state, the `(last_cycle, last_timestamp)` pair written (if any) to the
primary store (`save_cycle_state`) and to the sidecar
(`_persist_sidecar_state`), and the resulting counter. -/
structure RestoreResult where
  chosen : Option MachineState
  primaryWrite : Option (Nat × Nat)
  sidecarWrite : Option (Nat × Nat)
  counter : CycleCounter
  counter_initialized : Bool
deriving DecidableEq, Repr

/-- `CycleMonitor._restore_counter_state`, with the two loads
(`load_cycle_state` for the primary store, `_load_sidecar_state` for the
sidecar) supplied as inputs.  When both exist, the sidecar wins only with a
strictly later `last_timestamp` and is then synced back to the primary
store; otherwise the primary state wins and is persisted to the sidecar.
When at most one exists (`persisted_state or sidecar_state`), it is adopted
without any write-back.  The chosen state's timestamp seeds the counter via
`configure`. -/
def restore_counter_state (persisted_state sidecar_state : Option MachineState)
    (c : CycleCounter) : RestoreResult :=
  let choice : Option MachineState × Option (Nat × Nat) × Option (Nat × Nat) :=
    match persisted_state, sidecar_state with
    | some p, some s =>
      if p.last_timestamp < s.last_timestamp then
        (some s, some (s.last_cycle, s.last_timestamp), none)
      else
        (some p, none, some (p.last_cycle, p.last_timestamp))
    | _, _ => (persisted_state <|> sidecar_state, none, none)
  match choice with
  | (none, pw, sw) => ⟨none, pw, sw, c, false⟩
  | (some st, pw, sw) =>
    ⟨some st, pw, sw, c.configure st.last_timestamp st.last_cycle, true⟩

/-- Claim C10: tie-breaking in state reconciliation: an equal sidecar
timestamp loses to the primary state, which is then written to the sidecar;
the sidecar is chosen only when its timestamp is strictly later. -/
theorem restore_tie_breaking :
    (∀ (p s : MachineState) (c : CycleCounter), s.last_timestamp = p.last_timestamp →
      (restore_counter_state (some p) (some s) c).chosen = some p ∧
      (restore_counter_state (some p) (some s) c).sidecarWrite
        = some (p.last_cycle, p.last_timestamp) ∧
      (restore_counter_state (some p) (some s) c).primaryWrite = none ∧
      (restore_counter_state (some p) (some s) c).counter
        = c.configure p.last_timestamp p.last_cycle) ∧
    (∀ (p s : MachineState) (c : CycleCounter),
      (restore_counter_state (some p) (some s) c).chosen = some s →
      p.last_timestamp < s.last_timestamp ∨ s = p) := by
  constructor
  · intro p s c h
    have hlt : ¬ p.last_timestamp < s.last_timestamp := by omega
    simp only [restore_counter_state, if_neg hlt]
    exact ⟨by trivial, by trivial, by trivial, by trivial⟩
  · intro p s c h
    by_cases hlt : p.last_timestamp < s.last_timestamp
    · exact Or.inl hlt
    · right
      simp only [restore_counter_state, if_neg hlt, Option.some.injEq] at h
      exact h.symm

/-- Concrete instantiation of `restore_tie_breaking`: equal timestamps make
the primary state win and get mirrored to the sidecar. -/
theorem restore_tie_breaking_witness :
    (restore_counter_state (some ⟨"M1", 5, 100⟩) (some ⟨"M1", 7, 100⟩)
        (CycleCounter.init 4)).chosen = some ⟨"M1", 5, 100⟩ ∧
    (restore_counter_state (some ⟨"M1", 5, 100⟩) (some ⟨"M1", 7, 100⟩)
        (CycleCounter.init 4)).sidecarWrite = some (5, 100) ∧
    (restore_counter_state (some ⟨"M1", 5, 100⟩) (some ⟨"M1", 7, 100⟩)
        (CycleCounter.init 4)).primaryWrite = none ∧
    (restore_counter_state (some ⟨"M1", 5, 100⟩) (some ⟨"M1", 7, 100⟩)
        (CycleCounter.init 4)).counter = (CycleCounter.init 4).configure 100 5 :=
  restore_tie_breaking.1 ⟨"M1", 5, 100⟩ ⟨"M1", 7, 100⟩ (CycleCounter.init 4) rfl

/-- Counterexample to claim C2's single-location clause: with only the
primary state present, `_restore_counter_state` adopts it but performs no
mirroring write to the sidecar. -/
theorem restore_no_mirror_counterexample :
    (restore_counter_state (some ⟨"M1", 5, 100⟩) none (CycleCounter.init 4)).chosen
      = some ⟨"M1", 5, 100⟩ ∧
    (restore_counter_state (some ⟨"M1", 5, 100⟩) none (CycleCounter.init 4)).sidecarWrite
      = none ∧
    (restore_counter_state (some ⟨"M1", 5, 100⟩) none (CycleCounter.init 4)).primaryWrite
      = none := ⟨rfl, rfl, rfl⟩

/-- Claim C2 (amended): when both states exist, the strictly later
timestamp wins and is written back to the losing location; when only one
exists it is adopted but not mirrored; in the concrete primary `(5, t1)`
versus sidecar `(7, t2)` case with `t2 > t1`, the counter is seeded from
`(7, t2)` and the primary store is overwritten to `(7, t2)`. -/
theorem restore_reconciliation :
    (∀ (p s : MachineState) (c : CycleCounter), p.last_timestamp < s.last_timestamp →
      restore_counter_state (some p) (some s) c =
        ⟨some s, some (s.last_cycle, s.last_timestamp), none,
         c.configure s.last_timestamp s.last_cycle, true⟩) ∧
    (∀ (p s : MachineState) (c : CycleCounter), s.last_timestamp < p.last_timestamp →
      restore_counter_state (some p) (some s) c =
        ⟨some p, none, some (p.last_cycle, p.last_timestamp),
         c.configure p.last_timestamp p.last_cycle, true⟩) ∧
    (∀ (st : MachineState) (c : CycleCounter),
      restore_counter_state (some st) none c =
        ⟨some st, none, none, c.configure st.last_timestamp st.last_cycle, true⟩ ∧
      restore_counter_state none (some st) c =
        ⟨some st, none, none, c.configure st.last_timestamp st.last_cycle, true⟩) ∧
    (∀ (t1 t2 : Nat) (c : CycleCounter), t1 < t2 →
      (restore_counter_state (some ⟨"M1", 5, t1⟩) (some ⟨"M1", 7, t2⟩) c).counter
        = c.configure t2 7 ∧
      (restore_counter_state (some ⟨"M1", 5, t1⟩) (some ⟨"M1", 7, t2⟩) c).primaryWrite
        = some (7, t2)) := by
  refine ⟨?_, ?_, ?_, ?_⟩
  · intro p s c h
    simp only [restore_counter_state, if_pos h]
  · intro p s c h
    have hlt : ¬ p.last_timestamp < s.last_timestamp := by omega
    simp only [restore_counter_state, if_neg hlt]
  · intro st c
    exact ⟨rfl, rfl⟩
  · intro t1 t2 c h
    have h' : (⟨"M1", 5, t1⟩ : MachineState).last_timestamp
        < (⟨"M1", 7, t2⟩ : MachineState).last_timestamp := h
    simp only [restore_counter_state, if_pos h']
    exact ⟨by trivial, by trivial⟩

/-- Concrete instantiation of `restore_reconciliation`: sidecar `(7, 200)`
beats primary `(5, 100)` and is synced back to the primary store. -/
theorem restore_reconciliation_witness :
    (restore_counter_state (some ⟨"M1", 5, 100⟩) (some ⟨"M1", 7, 200⟩)
        (CycleCounter.init 4)).counter = (CycleCounter.init 4).configure 200 7 ∧
    (restore_counter_state (some ⟨"M1", 5, 100⟩) (some ⟨"M1", 7, 200⟩)
        (CycleCounter.init 4)).primaryWrite = some (7, 200) :=
  restore_reconciliation.2.2.2 100 200 (CycleCounter.init 4) (by omega)

/-- What `data.get("reset_hour", defaults.reset_hour)` followed by `int(...)`
yields in `AppConfig.from_dict` (`config.py`): the key may be absent, hold a
value Python's `int()` converts to `n`, or hold a value whose conversion
raises `TypeError`/`ValueError`. -/
inductive ResetHourValue
  | absent
  | intVal (n : Int)
  | nonConvertible
deriving DecidableEq, Repr

/-- The reset-hour logic of `AppConfig.from_dict`: the default reset hour is
4; a conversion failure falls back to the default, and an out-of-range value
is replaced by the default. -/
def from_dict_reset_hour (v : ResetHourValue) : Int :=
  let reset_hour : Int :=
    match v with
    | .absent => 4
    | .intVal n => n
    | .nonConvertible => 4
  if 0 ≤ reset_hour ∧ reset_hour ≤ 23 then reset_hour else 4

/-- Claim C8: the loaded reset hour is always in 0–23; an integer in range
is kept, and an out-of-range or non-convertible (or absent) value yields the
default 4 instead of an error. -/
theorem from_dict_reset_hour_in_range (v : ResetHourValue) :
    (0 ≤ from_dict_reset_hour v ∧ from_dict_reset_hour v ≤ 23) ∧
    (∀ n : Int, v = ResetHourValue.intVal n → 0 ≤ n → n ≤ 23 →
      from_dict_reset_hour v = n) ∧
    (∀ n : Int, v = ResetHourValue.intVal n → ¬(0 ≤ n ∧ n ≤ 23) →
      from_dict_reset_hour v = 4) ∧
    (v = ResetHourValue.nonConvertible → from_dict_reset_hour v = 4) ∧
    (v = ResetHourValue.absent → from_dict_reset_hour v = 4) := by
  refine ⟨?_, ?_, ?_, ?_, ?_⟩
  · cases v <;> simp only [from_dict_reset_hour] <;> split <;> omega
  · intro n h h0 h23
    subst h
    simp only [from_dict_reset_hour]
    rw [if_pos ⟨h0, h23⟩]
  · intro n h hout
    subst h
    simp only [from_dict_reset_hour]
    rw [if_neg hout]
  · intro h; subst h; rfl
  · intro h; subst h; rfl

/-- Concrete instantiation of `from_dict_reset_hour_in_range`: 30 is out of
range and collapses to the default 4, while 5 is kept. -/
theorem from_dict_reset_hour_witness :
    from_dict_reset_hour (ResetHourValue.intVal 30) = 4 ∧
    from_dict_reset_hour (ResetHourValue.intVal 5) = 5 :=
  ⟨(from_dict_reset_hour_in_range (ResetHourValue.intVal 30)).2.2.1 30 rfl (by decide),
   (from_dict_reset_hour_in_range (ResetHourValue.intVal 5)).2.1 5 rfl (by decide) (by decide)⟩

/-- The observer-callback step at the end of `CycleMonitor._handle_event`
(`gpio_monitor.py`): `self._callback(timestamp)` wrapped in `try`/`except`,
so a raised exception (modelled as `Except.error`) is logged and swallowed.
-/
def handle_event_observer (callback : Option (Nat → Except String Unit)) (t : Nat) :
    Except String Unit :=
  match callback with
  | none => Except.ok ()
  | some cb =>
    match cb t with
    | Except.ok _ => Except.ok ()
    | Except.error _ => Except.ok ()

/-- The observer-callback step at the end of `CycleMonitor.simulate_event`:
`self._callback(timestamp)` with no surrounding `try`/`except`, so a raised
exception propagates to the caller. -/
def simulate_event_observer (callback : Option (Nat → Except String Unit)) (t : Nat) :
    Except String Unit :=
  match callback with
  | none => Except.ok ()
  | some cb => cb t

/-- Counterexample to claim C6: on the `simulate_event` path a raising
observer callback makes the whole path raise, rather than being caught. -/
theorem simulate_event_observer_counterexample :
    simulate_event_observer (some fun _ => Except.error "observer failure") 0
      = Except.error "observer failure" := rfl

/-- Claim C6 (amended): on the hardware edge-handling path every observer
exception is caught and never propagates, but `simulate_event` invokes the
observer directly, so its exceptions propagate to the caller. -/
theorem observer_exception_policy :
    (∀ (callback : Option (Nat → Except String Unit)) (t : Nat),
      handle_event_observer callback t = Except.ok ()) ∧
    (∀ (cb : Nat → Except String Unit) (t : Nat),
      simulate_event_observer (some cb) t = cb t) := by
  constructor
  · intro callback t
    cases callback with
    | none => rfl
    | some cb =>
      simp only [handle_event_observer]
      cases cb t <;> rfl
  · intro cb t
    rfl

/-- Result of `CycleMonitor._ensure_migrated` on the CSV file's contents:
the file's rows after the call, whether the file was rewritten, and the
optional `(last timestamp, row count)` seed the method returns. -/
structure MigrationResult (F : Type) where
  fileRows : List (List F)
  wrote : Bool
  seed : Option (Nat × Nat)
deriving DecidableEq, Repr

/-- One iteration of the migration loop: skip an empty row
(`len(row) < 1`), read the last field (`row[-1]`), skip the row when
`datetime.fromisoformat` fails, otherwise emit the single-column row
`[timestamp.isoformat()]`. -/
def migrate_row {F : Type} (parse : F → Option Nat) (iso : Nat → F) (row : List F) :
    Option (List F) :=
  match row.getLast? with
  | none => none
  | some f =>
    match parse f with
    | none => none
    | some t => some [iso t]

/-- `CycleMonitor._ensure_migrated` over the CSV file's parsed rows, with
the field type `F` abstract: `parse` stands for `datetime.fromisoformat`
(`none` modelling `ValueError`), `iso` for `datetime.isoformat`, and `now`
for the wall-clock fallback.  An empty file and a file whose first row has
exactly one column are left untouched; a first row of 2 or 3 columns
rewrites the whole file to single-column rows; any other width is an
unknown format, also untouched.  (The replay of migrated timestamps through
a fresh `_CycleCounter` produces cycle numbers the code never uses, so it
is not modelled.) -/
def ensure_migrated {F : Type} (parse : F → Option Nat) (iso : Nat → F) (now : Nat)
    (rows : List (List F)) : MigrationResult F :=
  match rows with
  | [] => ⟨rows, false, some (now, 0)⟩
  | first_row :: _ =>
    if first_row.length = 1 then ⟨rows, false, none⟩
    else if first_row.length = 2 ∨ first_row.length = 3 then
      let migrated_rows := rows.filterMap (migrate_row parse iso)
      let seed : Option (Nat × Nat) :=
        match migrated_rows.getLast? with
        | some lastRow => some ((lastRow.head?.bind parse).getD now, migrated_rows.length)
        | none => some (now, 0)
      ⟨migrated_rows, true, seed⟩
    else ⟨rows, false, none⟩

theorem migrate_rows_preserve {F : Type} (parse : F → Option Nat) (iso : Nat → F)
    (hround : ∀ t, parse (iso t) = some t) :
    ∀ rows : List (List F), (∀ r ∈ rows, ∃ t, r.getLast?.bind parse = some t) →
      (rows.filterMap (migrate_row parse iso)).length = rows.length ∧
      (rows.filterMap (migrate_row parse iso)).map (fun r => r.getLast?.bind parse)
        = rows.map (fun r => r.getLast?.bind parse) := by
  intro rows
  induction rows with
  | nil => intro _; exact ⟨rfl, rfl⟩
  | cons r rs ih =>
    intro h
    obtain ⟨t, ht⟩ := h r (List.mem_cons_self r rs)
    obtain ⟨hlen, hmap⟩ := ih (fun x hx => h x (List.mem_cons_of_mem r hx))
    cases hg : r.getLast? with
    | none => rw [hg] at ht; simp at ht
    | some f =>
      rw [hg] at ht
      simp only [Option.some_bind] at ht
      have hm : migrate_row parse iso r = some [iso t] := by
        simp only [migrate_row, hg, ht]
      simp only [List.filterMap_cons, hm, List.length_cons, List.map_cons, hlen, hmap,
        List.getLast?_singleton, Option.some_bind, hround, hg, ht]
      exact ⟨by trivial, by trivial⟩

/-- Claim C4: migrating a legacy file whose rows all have 2 or 3 fields and
end in a parseable timestamp preserves the row count and the sequence of
timestamps, in order. -/
theorem ensure_migrated_preserves_rows {F : Type} (parse : F → Option Nat) (iso : Nat → F)
    (now : Nat) (rows : List (List F))
    (hround : ∀ t, parse (iso t) = some t)
    (hne : rows ≠ [])
    (hlen : ∀ r ∈ rows, r.length = 2 ∨ r.length = 3)
    (hts : ∀ r ∈ rows, ∃ t, r.getLast?.bind parse = some t) :
    (ensure_migrated parse iso now rows).fileRows.length = rows.length ∧
    (ensure_migrated parse iso now rows).fileRows.map (fun r => r.getLast?.bind parse)
      = rows.map (fun r => r.getLast?.bind parse) := by
  cases rows with
  | nil => exact absurd rfl hne
  | cons first rest =>
    have h1 : first.length = 2 ∨ first.length = 3 := hlen first (List.mem_cons_self _ _)
    have hne1 : ¬ first.length = 1 := by omega
    simp only [ensure_migrated, if_neg hne1, if_pos h1]
    exact migrate_rows_preserve parse iso hround (first :: rest) hts

/-- Concrete instantiation of `ensure_migrated_preserves_rows` with fields
that are their own timestamps (`parse = some`, `iso` the identity). -/
theorem ensure_migrated_preserves_rows_witness :
    (ensure_migrated (F := Nat) some (fun t => t) 0 [[10, 20], [30, 40, 50]]).fileRows.length
      = ([[10, 20], [30, 40, 50]] : List (List Nat)).length ∧
    (ensure_migrated (F := Nat) some (fun t => t) 0 [[10, 20], [30, 40, 50]]).fileRows.map
        (fun r => r.getLast?.bind some)
      = ([[10, 20], [30, 40, 50]] : List (List Nat)).map (fun r => r.getLast?.bind some) :=
  ensure_migrated_preserves_rows some (fun t => t) 0 [[10, 20], [30, 40, 50]]
    (fun _ => rfl) (by decide) (by decide)
    (by
      intro r hr
      fin_cases hr
      · exact ⟨20, rfl⟩
      · exact ⟨50, rfl⟩)

/-- Claim C5: running `_ensure_migrated` on a file already in single-column
format (every row one field) performs no write and leaves the rows
unchanged. -/
theorem ensure_migrated_idempotent {F : Type} (parse : F → Option Nat) (iso : Nat → F)
    (now : Nat) (rows : List (List F))
    (hone : ∀ r ∈ rows, r.length = 1) :
    (ensure_migrated parse iso now rows).fileRows = rows ∧
    (ensure_migrated parse iso now rows).wrote = false := by
  cases rows with
  | nil => exact ⟨rfl, rfl⟩
  | cons first rest =>
    have h1 : first.length = 1 := hone first (List.mem_cons_self _ _)
    simp only [ensure_migrated, if_pos h1]
    exact ⟨by trivial, by trivial⟩

/-- Concrete instantiation of `ensure_migrated_idempotent` on a two-row
single-column file. -/
theorem ensure_migrated_idempotent_witness :
    (ensure_migrated (F := Nat) some (fun t => t) 0 [[5], [9]]).fileRows = [[5], [9]] ∧
    (ensure_migrated (F := Nat) some (fun t => t) 0 [[5], [9]]).wrote = false :=
  ensure_migrated_idempotent some (fun t => t) 0 [[5], [9]] (by decide)

/-- In-memory and on-disk state touched by the pending-row logic of
`CycleMonitor` (`gpio_monitor.py`): the in-memory pending list and write
queue, the spool file's contents (`none` = file absent), the ledger (CSV)
file's rows, and the `_pending_loaded` flag.  A row is represented by its
single timestamp column. -/
structure FlushState where
  pending_rows : List String
  write_queue : List String
  spool : Option (List String)
  ledger : List String
  pending_loaded : Bool
deriving DecidableEq, Repr

/-- `CycleMonitor._load_pending_rows`: on the first call, append every row
of the spool file to the in-memory pending list and mark loading done. -/
def load_pending_rows (s : FlushState) : FlushState :=
  if s.pending_loaded then s
  else
    { s with
        pending_rows :=
          s.pending_rows ++ (match s.spool with | some rows => rows | none => []),
        pending_loaded := true }

/-- `CycleMonitor._persist_pending_rows`, with `ok` the success of the file
operation: an empty pending list removes the spool file, otherwise the
spool file is rewritten to exactly the pending list; on failure the
exception is logged and swallowed and the spool file keeps its old
contents. -/
def persist_pending_rows (ok : Bool) (s : FlushState) : FlushState :=
  if s.pending_rows = [] then
    if ok then { s with spool := none } else s
  else
    if ok then { s with spool := some s.pending_rows } else s

/-- `CycleMonitor._flush_queue`, with `appendOk` the success of the ledger
append (`csv_path.open("a")` plus `writerows`, one call for all rows) and
`persistOk` the success of the subsequent spool-file update.  On append
failure the snapshot `rows_to_write` becomes the new pending list, the
write queue is cleared, the spool is re-persisted, and `false` is returned
instead of raising. -/
def flush_queue (appendOk persistOk : Bool) (s : FlushState) : FlushState × Bool :=
  let s := load_pending_rows s
  if s.pending_rows = [] ∧ s.write_queue = [] then (s, true)
  else
    let rows_to_write := s.pending_rows ++ s.write_queue
    let s := { s with pending_rows := [], write_queue := [] }
    if appendOk then
      (persist_pending_rows persistOk { s with ledger := s.ledger ++ rows_to_write }, true)
    else
      (persist_pending_rows persistOk
        { s with pending_rows := rows_to_write, write_queue := [] },
       false)

theorem load_pending_rows_queue (s : FlushState) :
    (load_pending_rows s).write_queue = s.write_queue := by
  simp only [load_pending_rows]; split <;> rfl

theorem load_pending_rows_ledger (s : FlushState) :
    (load_pending_rows s).ledger = s.ledger := by
  simp only [load_pending_rows]; split <;> rfl

theorem load_pending_rows_spool (s : FlushState) :
    (load_pending_rows s).spool = s.spool := by
  simp only [load_pending_rows]; split <;> rfl

theorem load_pending_rows_loaded (s : FlushState) :
    (load_pending_rows s).pending_loaded = true := by
  simp only [load_pending_rows]
  split
  · next h => exact h
  · rfl

theorem load_pending_rows_idem (s : FlushState) :
    load_pending_rows (load_pending_rows s) = load_pending_rows s := by
  have h := load_pending_rows_loaded s
  simp only [load_pending_rows] at h ⊢
  split at h <;> simp_all

theorem flush_queue_load (appendOk persistOk : Bool) (s : FlushState) :
    flush_queue appendOk persistOk s = flush_queue appendOk persistOk (load_pending_rows s) := by
  simp only [flush_queue, load_pending_rows_idem]

theorem load_pending_rows_empty_spool (s : FlushState)
    (hinv : s.pending_loaded = true → s.spool = none ∨ s.spool = some s.pending_rows)
    (hemp : (load_pending_rows s).pending_rows = []) :
    s.spool = none ∨ s.spool = some [] := by
  by_cases hpl : s.pending_loaded
  · have hid : load_pending_rows s = s := by simp [load_pending_rows, hpl]
    rw [hid] at hemp
    rcases hinv hpl with h | h
    · exact Or.inl h
    · right
      rw [h, hemp]
  · simp only [load_pending_rows, if_neg hpl] at hemp
    cases hsp : s.spool with
    | none => exact Or.inl rfl
    | some rows =>
      right
      rw [hsp] at hemp
      simp only [List.append_eq_nil] at hemp
      rw [hemp.2]

theorem flush_queue_loaded (s : FlushState)
    (hpl : s.pending_loaded = true)
    (hsp : s.pending_rows = [] → s.spool = none ∨ s.spool = some []) :
    ((flush_queue true true s).1.ledger = s.ledger ++ s.pending_rows ++ s.write_queue ∧
      (flush_queue true true s).1.pending_rows = [] ∧
      (flush_queue true true s).1.write_queue = [] ∧
      ((flush_queue true true s).1.spool = none ∨
        (flush_queue true true s).1.spool = some []) ∧
      (flush_queue true true s).2 = true) ∧
    (s.pending_rows ++ s.write_queue ≠ [] →
      (flush_queue false true s).1.pending_rows = s.pending_rows ++ s.write_queue ∧
      (flush_queue false true s).1.write_queue = [] ∧
      (flush_queue false true s).1.spool = some (s.pending_rows ++ s.write_queue) ∧
      (flush_queue false true s).1.ledger = s.ledger ∧
      (flush_queue false true s).2 = false) := by
  obtain ⟨p, q, sp, l, pl⟩ := s
  have hpl2 : pl = true := hpl
  subst hpl2
  have hsp2 : p = [] → sp = none ∨ sp = some [] := hsp
  by_cases hempty : p = [] ∧ q = []
  · obtain ⟨hp, hq⟩ := hempty
    subst hp
    subst hq
    refine ⟨⟨?_, ?_, ?_, ?_, ?_⟩, ?_⟩
    · simp [flush_queue, load_pending_rows]
    · simp [flush_queue, load_pending_rows]
    · simp [flush_queue, load_pending_rows]
    · simpa [flush_queue, load_pending_rows] using hsp2 rfl
    · simp [flush_queue, load_pending_rows]
    · intro hne
      simp at hne
  · have hne2 : ¬(p ++ q = []) := by
      intro hc
      exact hempty (by simpa using hc)
    refine ⟨⟨?_, ?_, ?_, ?_, ?_⟩, fun _ => ⟨?_, ?_, ?_, ?_, ?_⟩⟩ <;>
      simp [flush_queue, load_pending_rows, persist_pending_rows, hempty, hne2,
        List.append_assoc]

/-- Claim C3: a successful `_flush_queue` appends the crash-recovered
pending rows followed by the newly queued rows to the ledger in one write,
clears both the in-memory pending set and the spool file, and reports
success; a failed ledger append restores all of those rows as the pending
set, rewrites the spool file to exactly that set, and reports failure
instead of raising. -/
theorem flush_queue_spec (s : FlushState)
    (hinv : s.pending_loaded = true → s.spool = none ∨ s.spool = some s.pending_rows) :
    ((flush_queue true true s).1.ledger
        = s.ledger ++ (load_pending_rows s).pending_rows ++ s.write_queue ∧
      (flush_queue true true s).1.pending_rows = [] ∧
      (flush_queue true true s).1.write_queue = [] ∧
      ((flush_queue true true s).1.spool = none ∨
        (flush_queue true true s).1.spool = some []) ∧
      (flush_queue true true s).2 = true) ∧
    ((load_pending_rows s).pending_rows ++ s.write_queue ≠ [] →
      (flush_queue false true s).1.pending_rows
          = (load_pending_rows s).pending_rows ++ s.write_queue ∧
      (flush_queue false true s).1.write_queue = [] ∧
      (flush_queue false true s).1.spool
          = some ((load_pending_rows s).pending_rows ++ s.write_queue) ∧
      (flush_queue false true s).1.ledger = s.ledger ∧
      (flush_queue false true s).2 = false) := by
  have hmain := flush_queue_loaded (load_pending_rows s)
    (load_pending_rows_loaded s)
    (fun he => by
      rw [load_pending_rows_spool]
      exact load_pending_rows_empty_spool s hinv he)
  rw [flush_queue_load true true s, flush_queue_load false true s]
  rw [load_pending_rows_ledger, load_pending_rows_queue] at hmain
  exact hmain

/-- Concrete instantiation of `flush_queue_spec`: pending row "p" (also
spooled) and queued row "q" over ledger ["old"]. -/
theorem flush_queue_spec_witness :
    (flush_queue true true ⟨["p"], ["q"], some ["p"], ["old"], true⟩).1.ledger
        = ["old", "p", "q"] ∧
    ((flush_queue true true ⟨["p"], ["q"], some ["p"], ["old"], true⟩).1.spool = none ∨
      (flush_queue true true ⟨["p"], ["q"], some ["p"], ["old"], true⟩).1.spool = some []) ∧
    (flush_queue false true ⟨["p"], ["q"], some ["p"], ["old"], true⟩).1.pending_rows
        = ["p", "q"] ∧
    (flush_queue false true ⟨["p"], ["q"], some ["p"], ["old"], true⟩).1.spool
        = some ["p", "q"] := by
  have h := flush_queue_spec ⟨["p"], ["q"], some ["p"], ["old"], true⟩ (by decide)
  have h2 := h.2 (by decide)
  exact ⟨by rw [h.1.1]; decide, h.1.2.2.2.1, by rw [h2.1]; decide, by rw [h2.2.2.1]; decide⟩
